import Mathlib

/- Verification of the design2align-scanner core: the word-clustering engine
   (word_tools.py) and the outline model plus span resolver
   (vertical_keyworded_toc.py), shallowly embedded over exact rational
   coordinates.  Fallible operations of the source (exceptions) are modelled
   with Option / Except results. -/

namespace D2A

/-- A bounding-box vertex: an x, y pair of coordinates. -/
structure Vertex where
  x : Rat
  y : Rat
deriving DecidableEq

/-- An OCR word: its text and its quadrilateral bounding-box vertices
    (word_tools.Word wraps the backend record; the trailing-break text does
    not participate in any geometry or cleanup decision verified here). -/
structure WordData where
  text : String
  vertices : List Vertex
deriving DecidableEq

/-- Insertion of a value into an already sorted list (helper for pySorted). -/
def insertRat (v : Rat) : List Rat → List Rat
  | [] => [v]
  | y :: ys => if v ≤ y then v :: y :: ys else y :: insertRat v ys

/-- Python's sorted() on a list of numbers, as used by Element.coordinates. -/
def pySorted : List Rat → List Rat
  | [] => []
  | v :: vs => insertRat v (pySorted vs)

/-- Element.coordinates('x') for a Word: the sorted vertex x coordinates. -/
def wordXCoords (w : WordData) : List Rat := pySorted (w.vertices.map (·.x))

/-- Element.coordinates('y') for a Word: the sorted vertex y coordinates. -/
def wordYCoords (w : WordData) : List Rat := pySorted (w.vertices.map (·.y))

/-- Element.min_x = sum(x_coordinates[:2]) / 2. -/
def wordMinX (w : WordData) : Rat := ((wordXCoords w).take 2).sum / 2

/-- Element.max_x = sum(x_coordinates[2:]) / 2. -/
def wordMaxX (w : WordData) : Rat := ((wordXCoords w).drop 2).sum / 2

/-- Element.min_y = sum(y_coordinates[:2]) / 2. -/
def wordMinY (w : WordData) : Rat := ((wordYCoords w).take 2).sum / 2

/-- Element.max_y = sum(y_coordinates[2:]) / 2. -/
def wordMaxY (w : WordData) : Rat := ((wordYCoords w).drop 2).sum / 2

/-- Element.width = abs(max_x - min_x). -/
def wordWidth (w : WordData) : Rat := |wordMaxX w - wordMinX w|

/-- Element.height = abs(max_y - min_y). -/
def wordHeight (w : WordData) : Rat := |wordMaxY w - wordMinY w|

/-- Element.center = (min_x + width / 2, min_y + height / 2). -/
def wordCenter (w : WordData) : Rat × Rat :=
  (wordMinX w + wordWidth w / 2, wordMinY w + wordHeight w / 2)

/-- word_tools.list_min restricted to lists of numbers: None for the empty
    list, the single element for a singleton, min(*values) otherwise. -/
def list_min : List Rat → Option Rat
  | [] => none
  | [v] => some v
  | v :: rest => some (rest.foldl min v)

/-- word_tools.list_max restricted to lists of numbers: None for the empty
    list, the single element for a singleton, max(*values) otherwise. -/
def list_max : List Rat → Option Rat
  | [] => none
  | [v] => some v
  | v :: rest => some (rest.foldl max v)

/-- Sequencing of possibly-failing coordinate values: some list exactly when
    every entry is present.  A none entry models a Python exception raised
    while evaluating or comparing the corresponding value. -/
def optList : List (Option Rat) → Option (List Rat)
  | [] => some []
  | none :: _ => none
  | some v :: rest => (optList rest).map (v :: ·)

/-- A Line is an ordered list of its child Words. -/
abbrev Line := List WordData

/-- A LineGroup is an ordered list of its child Lines. -/
abbrev LineGroup := List Line

/-- GroupedElement.bounds, the four synthesized vertices
    [{min_x,min_y}, {min_x,max_y}, {max_x,max_y}, {max_x,min_y}].  A none
    component is the Python None that list_min / list_max return for an
    element with no children. -/
def boundsQuad (minX maxX minY maxY : Option Rat) :
    List (Option Rat × Option Rat) :=
  [(minX, minY), (minX, maxY), (maxX, maxY), (maxX, minY)]

/-- GroupedElement.bounds for a Line (children are Words, whose coordinate
    properties always evaluate). -/
def lineBounds (l : Line) : List (Option Rat × Option Rat) :=
  boundsQuad (list_min (l.map wordMinX)) (list_max (l.map wordMaxX))
    (list_min (l.map wordMinY)) (list_max (l.map wordMaxY))

/-- Element.coordinates on a grouped element's bounds.  Python's sorted()
    raises a TypeError as soon as it compares a None coordinate; the none
    result models that exception. -/
def coordsFromBounds (vals : List (Option Rat)) : Option (List Rat) :=
  (optList vals).map pySorted

/-- Sorted x coordinates of a Line's bounds. -/
def lineXCoords (l : Line) : Option (List Rat) :=
  coordsFromBounds ((lineBounds l).map Prod.fst)

/-- Sorted y coordinates of a Line's bounds. -/
def lineYCoords (l : Line) : Option (List Rat) :=
  coordsFromBounds ((lineBounds l).map Prod.snd)

/-- Element.min_x for a Line. -/
def lineMinX (l : Line) : Option Rat :=
  (lineXCoords l).map (fun c => (c.take 2).sum / 2)

/-- Element.max_x for a Line. -/
def lineMaxX (l : Line) : Option Rat :=
  (lineXCoords l).map (fun c => (c.drop 2).sum / 2)

/-- Element.min_y for a Line. -/
def lineMinY (l : Line) : Option Rat :=
  (lineYCoords l).map (fun c => (c.take 2).sum / 2)

/-- Element.max_y for a Line. -/
def lineMaxY (l : Line) : Option Rat :=
  (lineYCoords l).map (fun c => (c.drop 2).sum / 2)

/-- Element.width for a Line. -/
def lineWidth (l : Line) : Option Rat :=
  (lineMaxX l).bind fun mx => (lineMinX l).map fun mn => |mx - mn|

/-- Element.height for a Line. -/
def lineHeight (l : Line) : Option Rat :=
  (lineMaxY l).bind fun my => (lineMinY l).map fun mn => |my - mn|

/-- Element.center_x for a Line. -/
def lineCenterX (l : Line) : Option Rat :=
  (lineMinX l).bind fun mn => (lineWidth l).map fun w => mn + w / 2

/-- Element.center_y for a Line. -/
def lineCenterY (l : Line) : Option Rat :=
  (lineMinY l).bind fun mn => (lineHeight l).map fun h => mn + h / 2

/-- Element.center for a Line. -/
def lineCenter (l : Line) : Option (Rat × Rat) :=
  (lineCenterX l).bind fun cx => (lineCenterY l).map fun cy => (cx, cy)

/-- GroupedElement.bounds for a LineGroup.  The outer none models an
    exception raised while evaluating a child Line's coordinate property
    (which Python does eagerly in the list comprehensions); the inner none
    components are the placeholder Nones produced for an empty group. -/
def groupBounds (g : LineGroup) : Option (List (Option Rat × Option Rat)) :=
  (optList (g.map lineMinX)).bind fun minXs =>
  (optList (g.map lineMaxX)).bind fun maxXs =>
  (optList (g.map lineMinY)).bind fun minYs =>
  (optList (g.map lineMaxY)).map fun maxYs =>
  boundsQuad (list_min minXs) (list_max maxXs) (list_min minYs)
    (list_max maxYs)

/-- Sorted x coordinates of a LineGroup's bounds. -/
def groupXCoords (g : LineGroup) : Option (List Rat) :=
  (groupBounds g).bind fun b => coordsFromBounds (b.map Prod.fst)

/-- Sorted y coordinates of a LineGroup's bounds. -/
def groupYCoords (g : LineGroup) : Option (List Rat) :=
  (groupBounds g).bind fun b => coordsFromBounds (b.map Prod.snd)

/-- Element.min_x for a LineGroup. -/
def groupMinX (g : LineGroup) : Option Rat :=
  (groupXCoords g).map (fun c => (c.take 2).sum / 2)

/-- Element.max_x for a LineGroup. -/
def groupMaxX (g : LineGroup) : Option Rat :=
  (groupXCoords g).map (fun c => (c.drop 2).sum / 2)

/-- Element.min_y for a LineGroup. -/
def groupMinY (g : LineGroup) : Option Rat :=
  (groupYCoords g).map (fun c => (c.take 2).sum / 2)

/-- Element.max_y for a LineGroup. -/
def groupMaxY (g : LineGroup) : Option Rat :=
  (groupYCoords g).map (fun c => (c.drop 2).sum / 2)

/-- Element.width for a LineGroup. -/
def groupWidth (g : LineGroup) : Option Rat :=
  (groupMaxX g).bind fun mx => (groupMinX g).map fun mn => |mx - mn|

/-- Element.height for a LineGroup. -/
def groupHeight (g : LineGroup) : Option Rat :=
  (groupMaxY g).bind fun my => (groupMinY g).map fun mn => |my - mn|

/-- word_tools.slope: 0 when the two points coincide, otherwise the finite
    difference slope.  none models the ZeroDivisionError raised when the x
    coordinates agree while the points differ. -/
def slope (a b : Rat × Rat) : Option Rat :=
  if a = b then some 0
  else if b.1 - a.1 = 0 then none
  else some ((b.2 - a.2) / (b.1 - a.1))

/-- The five proximity thresholds of the clustering engine. -/
structure Thresholds where
  word : Rat
  line : Rat
  line_slope : Rat
  group : Rat
  height : Rat
deriving DecidableEq

/-- word_tools.DEFAULT_PROXIMITY_THRESHOLDS:
    word=35, line=12, line_slope=1, group=7, height=10. -/
def DEFAULT_PROXIMITY_THRESHOLDS : Thresholds := ⟨35, 12, 1, 7, 10⟩

/-- WordGrouper.is_in_line, abstracted over the candidate element's center and
    height (the grouping loop only ever passes a Word as the element): fail
    the slope test if slope(line.center, element.center) > line_slope, then
    fail the height test if the absolute height difference exceeds height,
    else succeed. -/
def is_in_line (th : Thresholds) (elemCenter : Rat × Rat) (elemHeight : Rat)
    (lnCenter : Rat × Rat) (lnHeight : Rat) : Option Bool :=
  match slope lnCenter elemCenter with
  | none => none
  | some s =>
    if s > th.line_slope then some false
    else if |elemHeight - lnHeight| > th.height then some false
    else some true

/-- WordGrouper.word_in_line: is_in_line and, short-circuited after it,
    abs(word.min_x - line.max_x) < thresholds['word']. -/
def word_in_line (th : Thresholds) (w : WordData) (l : Line) : Option Bool :=
  (lineCenter l).bind fun lc =>
  (lineHeight l).bind fun lh =>
  match is_in_line th (wordCenter w) (wordHeight w) lc lh with
  | none => none
  | some false => some false
  | some true => (lineMaxX l).map fun lmx =>
      decide (|wordMinX w - lmx| < th.word)

/-- WordGrouper.line_in_group: False when
    abs(line.min_y - group.max_y) > thresholds['group'], else True. -/
def line_in_group (th : Thresholds) (l : Line) (g : LineGroup) : Option Bool :=
  (lineMinY l).bind fun lmin =>
  (groupMaxY g).map fun gmax => decide (¬ |lmin - gmax| > th.group)

/-- The body of WordGrouper.group's loop for one word: take the last group and
    its last line; add the word to that line if word_in_line accepts it; else
    wrap the word in a new Line and append it to the group if line_in_group
    accepts it; else append a new LineGroup holding only that line.  In-place
    mutation of the last line / group is modelled by rebuilding the list with
    dropLast.  none propagates an exception from the membership tests. -/
def group_step (th : Thresholds) (gs : List LineGroup) (w : WordData) :
    Option (List LineGroup) :=
  match gs.getLast? with
  | none => none
  | some g =>
    match g.getLast? with
    | none => none
    | some l =>
      match word_in_line th w l with
      | none => none
      | some true => some (gs.dropLast ++ [g.dropLast ++ [l ++ [w]]])
      | some false =>
        match line_in_group th [w] g with
        | none => none
        | some true => some (gs.dropLast ++ [g ++ [[w]]])
        | some false => some (gs ++ [[[w]]])

/-- The full loop of WordGrouper.group over the remaining words. -/
def group_loop (th : Thresholds) (gs : List LineGroup) :
    List WordData → Option (List LineGroup)
  | [] => some gs
  | w :: ws =>
    match group_step th gs w with
    | none => none
    | some gs2 => group_loop th gs2 ws

/-- WordGrouper.do_trim_line_words: repeatedly pop the last word while its
    full text matches the ignore predicate; on the first non-matching word it
    is pushed back and the loop stops. -/
def do_trim_line_words (ign : String → Bool) (ws : List WordData) :
    List WordData :=
  match h : ws.getLast? with
  | none => ws
  | some w => if ign w.text then do_trim_line_words ign ws.dropLast else ws
termination_by ws.length
decreasing_by
  have hne : ws ≠ [] := by
    intro he
    rw [he] at h
    simp at h
  have hpos : 0 < ws.length := List.length_pos.mpr hne
  simp [List.length_dropLast]
  omega

/-- WordGrouper.trim_line: reverse the children and trim the (now trailing)
    original leading run; if anything is left, reverse back and trim the
    trailing run. -/
def trim_line (ign : String → Bool) (ws : List WordData) : List WordData :=
  if ws.isEmpty then ws
  else
    let r := do_trim_line_words ign ws.reverse
    if r.isEmpty then r
    else do_trim_line_words ign r.reverse

/-- The interior pass of WordGrouper.clean_words: walk the line with a
    matched flag; a word whose text matches the ignore predicate while the
    previous word also matched is marked for removal.  Removing the marked
    words (Python removes them by object identity) is the same as dropping
    them in place. -/
def clean_interior (ign : String → Bool) : Bool → List WordData → List WordData
  | _, [] => []
  | true, w :: ws =>
    if ign w.text then clean_interior ign true ws
    else w :: clean_interior ign false ws
  | false, w :: ws =>
    if ign w.text then w :: clean_interior ign true ws
    else w :: clean_interior ign false ws

/-- The per-line body of WordGrouper.clean_words: an already empty line is
    marked for removal; otherwise the line is trimmed, the interior pass runs,
    and a line left empty is marked for removal.  none = removed. -/
def clean_line (ign : String → Bool) (l : Line) : Option Line :=
  if l.isEmpty then none
  else
    let t := clean_interior ign false (trim_line ign l)
    if t.isEmpty then none else some t

/-- WordGrouper.clean_words: clean every line of every group (removing the
    marked lines keeps the surviving lines in order), then remove the groups
    left with no lines. -/
def clean_words (ign : String → Bool) (gs : List LineGroup) : List LineGroup :=
  (gs.map fun g => g.filterMap (clean_line ign)).filter (fun g => !g.isEmpty)

/-- WordGrouper.__init__ followed by WordGrouper.group().  none models the
    exceptions the source raises: IndexError from popping the first word of an
    empty sequence in __init__; ZeroDivisionError from slope inside the loop;
    TypeError from re.fullmatch(None, ...) in the cleanup pass when
    ignore_regex is absent (the cleanup always reaches a fullmatch call
    because the loop only builds non-empty lines).  page_width and
    page_height are stored by __init__ but never used by the computation. -/
def wordGrouper_group (_page_width _page_height : Rat) (words : List WordData)
    (ignore_regex : Option (String → Bool)) (th : Thresholds) :
    Option (List LineGroup) :=
  match words with
  | [] => none
  | w :: rest =>
    (group_loop th [[[w]]] rest).bind fun gs =>
    match ignore_regex with
    | none => none
    | some ign => some (clean_words ign gs)

/-- A search-result anchor detection: page index, block index, paragraph
    index and bounding-box vertices, as returned by find_regex_matches. -/
structure SearchResult where
  page : Int
  block : Int
  paragraph : Int
  bounds : List Vertex
deriving DecidableEq

/-- The concrete ContentsItem classes of the outline model
    (TableOfContents, Part, Chapter, Section). -/
inductive CItemType where
  | toc
  | part
  | chapter
  | sect
deriving DecidableEq

/-- ContentsItem: its class tag (standing for Python's runtime class), the
    anchor detection, the ordinal number (None until assigned) and the
    ordered list of children.  The title and description fields never affect
    the algorithms verified here. -/
inductive ContentsItem where
  | mk (ty : CItemType) (result : SearchResult) (number : Option Int)
      (children : List ContentsItem)

/-- The class tag of an item. -/
def ContentsItem.ty : ContentsItem → CItemType
  | .mk t _ _ _ => t

/-- The search_result of an item. -/
def ContentsItem.result : ContentsItem → SearchResult
  | .mk _ r _ _ => r

/-- The ordinal number of an item. -/
def ContentsItem.number : ContentsItem → Option Int
  | .mk _ _ n _ => n

/-- The children list of an item. -/
def ContentsItem.children : ContentsItem → List ContentsItem
  | .mk _ _ _ cs => cs

/-- Python min(*values): the minimum of the values.  The source raises a
    TypeError when fewer than two values are supplied; anchors always carry a
    four-vertex box, so the total default for the empty list is never
    exercised by the claims. -/
def starMin (l : List Rat) : Rat :=
  match l with
  | [] => 0
  | v :: rest => rest.foldl min v

/-- Python max(*values), under the same proviso as starMin. -/
def starMax (l : List Rat) : Rat :=
  match l with
  | [] => 0
  | v :: rest => rest.foldl max v

/-- ContentsItem.page. -/
def ContentsItem.page (c : ContentsItem) : Int := c.result.page

/-- ContentsItem.block. -/
def ContentsItem.block (c : ContentsItem) : Int := c.result.block

/-- ContentsItem.paragraph. -/
def ContentsItem.paragraph (c : ContentsItem) : Int := c.result.paragraph

/-- ContentsItem.min_y = min(*[coordinate y of the anchor bounds]). -/
def ContentsItem.minY (c : ContentsItem) : Rat :=
  starMin (c.result.bounds.map (·.y))

/-- ContentsItem.max_y = max(*[coordinate y of the anchor bounds]). -/
def ContentsItem.maxY (c : ContentsItem) : Rat :=
  starMax (c.result.bounds.map (·.y))

/-- Python truthiness of the optional ordinal: falsy exactly for None and for
    the integer 0. -/
def numFalsy : Option Int → Bool
  | none => true
  | some n => n == 0

/-- ContentsItem.add: when the child's ordinal is falsy (absent or zero) it
    is set to len(children) + 1; the child is then appended. -/
def ContentsItem.add (self c : ContentsItem) : ContentsItem :=
  match self with
  | .mk t r n cs =>
    let c2 := if numFalsy c.number
      then ContentsItem.mk c.ty c.result (some ((cs.length : Int) + 1))
        c.children
      else c
    ContentsItem.mk t r n (cs ++ [c2])

/-- ContentsItem.is_before: lexicographic comparison on
    (page, block, paragraph, min_y); None (the ambiguous result) when all
    four keys agree. -/
def ContentsItem.is_before (a b : ContentsItem) : Option Bool :=
  if a.page ≠ b.page then some (decide (a.page < b.page))
  else if a.block ≠ b.block then some (decide (a.block < b.block))
  else if a.paragraph ≠ b.paragraph then
    some (decide (a.paragraph < b.paragraph))
  else if a.minY ≠ b.minY then some (decide (a.minY < b.minY))
  else none

/-- The parent-candidate scan inside ContentsItem.find_parent_for: find the
    first child the descendant precedes — by Python truthiness the ambiguous
    None comparison counts exactly like False — and take the child just
    before it (None when it is the first child); when no child tests true,
    take the last child (None when there are no children). -/
def pickParent (cs : List ContentsItem) (d : ContentsItem) :
    Option ContentsItem :=
  match cs.findIdx? (fun c => d.is_before c == some true) with
  | some idx => if idx > 0 then cs[idx - 1]? else none
  | none => cs.getLast?

theorem pickParent_mem {cs : List ContentsItem} {d p : ContentsItem}
    (h : pickParent cs d = some p) : p ∈ cs := by
  unfold pickParent at h
  split at h
  · split at h
    · exact List.getElem?_mem h
    · cases h
  · exact List.mem_of_getLast?_eq_some h

theorem sizeOf_lt_of_mem_children {p c : ContentsItem}
    (h : p ∈ c.children) : sizeOf p < sizeOf c := by
  cases c with
  | mk t r n cs =>
    have hlt := List.sizeOf_lt_of_mem h
    simp only [ContentsItem.children] at hlt
    simp only [ContentsItem.mk.sizeOf_spec]
    omega

/-- ContentsItem.find_parent_for: select the candidate parent among the
    children; raise (RuntimeError) when there is none; return it when its
    class is the required parent type; otherwise recurse into it. -/
def find_parent_for (self d : ContentsItem) (pt : CItemType) :
    Except String ContentsItem :=
  match hp : pickParent self.children d with
  | none => .error "Could not find item within children"
  | some parent =>
    if parent.ty = pt then .ok parent
    else find_parent_for parent d pt
termination_by sizeOf self
decreasing_by
  exact sizeOf_lt_of_mem_children (pickParent_mem hp)

mutual

/-- ContentsItem.flatten: the item itself followed by each child's flattened
    subtree, in order (pre-order traversal). -/
def flatten : ContentsItem → List ContentsItem
  | .mk t r n cs => ContentsItem.mk t r n cs :: flattenList cs

/-- The loop of ContentsItem.flatten: extend with each child's flatten. -/
def flattenList : List ContentsItem → List ContentsItem
  | [] => []
  | c :: cs => flatten c ++ flattenList cs

end

/-- ContentItemSpan: a start item and an optional end item. -/
structure ContentItemSpan where
  start : ContentsItem
  endItem : Option ContentsItem

/-- ContentItemSpan.y_bounds: (start.max_y, None) when there is no end item
    or the two anchors are on different pages, else
    (start.max_y, end.min_y). -/
def ContentItemSpan.y_bounds (s : ContentItemSpan) : Rat × Option Rat :=
  match s.endItem with
  | none => (s.start.maxY, none)
  | some e =>
    if s.start.page ≠ e.page then (s.start.maxY, none)
    else (s.start.maxY, some e.minY)

/-- The span list built by VerticalContentsHelper.run from the flattened
    items: one span per consecutive pair — zip(items[:-1], items[1:]) equals
    zip(items, items[1:]) since zip truncates to the shorter list — plus the
    final open-ended span for the last item.  The source raises an IndexError
    on an empty list; run always passes the non-empty result of flatten. -/
def buildSpans (items : List ContentsItem) : List ContentItemSpan :=
  ((items.zip items.tail).map fun p => ContentItemSpan.mk p.1 (some p.2)) ++
    (match items.getLast? with
      | some lastItem => [ContentItemSpan.mk lastItem none]
      | none => [])

/-- The span computation of VerticalContentsHelper.run applied to a built
    tree: flatten, then build the spans. -/
def runSpans (t : ContentsItem) : List ContentItemSpan :=
  buildSpans (flatten t)

/- ------------------------------------------------------------------ -/
/- Specification-side formulations used by the refinement theorems.    -/
/- ------------------------------------------------------------------ -/

/-- Specification-side trimming: drop the leading run of words whose full
    text matches the ignore predicate. -/
def dropLeadingIgnored (ign : String → Bool) (ws : List WordData) :
    List WordData :=
  ws.dropWhile (fun w => ign w.text)

/-- Specification-side trimming: drop the trailing run of words whose full
    text matches the ignore predicate. -/
def dropTrailingIgnored (ign : String → Bool) (ws : List WordData) :
    List WordData :=
  (ws.reverse.dropWhile (fun w => ign w.text)).reverse

theorem length_dropWhile_le (p : WordData → Bool) (l : List WordData) :
    (l.dropWhile p).length ≤ l.length := by
  induction l with
  | nil => simp
  | cons a l ih =>
    rw [List.dropWhile_cons]
    split
    · exact le_trans ih (by simp)
    · simp

/-- Specification-side interior cleanup: every non-ignorable word is kept;
    of each maximal run of consecutive ignorable words only the first word is
    kept and the rest of the run is dropped. -/
def collapseRuns (ign : String → Bool) : List WordData → List WordData
  | [] => []
  | w :: ws =>
    if ign w.text then
      w :: collapseRuns ign (ws.dropWhile (fun x => ign x.text))
    else w :: collapseRuns ign ws
termination_by ws => ws.length
decreasing_by
  · have := length_dropWhile_le (fun x => ign x.text) ws
    simp
    omega
  · simp

theorem do_trim_eq (ign : String → Bool) (ws : List WordData) :
    do_trim_line_words ign ws =
      (ws.reverse.dropWhile (fun w => ign w.text)).reverse := by
  induction ws using List.reverseRecOn with
  | nil =>
    rw [do_trim_line_words]
    rfl
  | append_singleton xs x ih =>
    rw [do_trim_line_words]
    split
    · next heq => simp [List.getLast?_concat] at heq
    · next w heq =>
      rw [List.getLast?_concat] at heq
      injection heq with heq
      subst heq
      rw [List.reverse_concat, List.dropWhile_cons]
      by_cases hx : ign x.text
      · rw [if_pos hx, List.dropLast_concat, ih]
        simp [hx]
      · rw [if_neg hx]
        simp [hx]

theorem trim_line_eq (ign : String → Bool) (ws : List WordData) :
    trim_line ign ws = dropTrailingIgnored ign (dropLeadingIgnored ign ws) := by
  unfold trim_line dropTrailingIgnored dropLeadingIgnored
  by_cases he : ws.isEmpty
  · rw [if_pos he]
    rw [List.isEmpty_iff] at he
    subst he
    rfl
  · rw [if_neg he]
    rw [do_trim_eq, List.reverse_reverse]
    by_cases h2 : ((ws.dropWhile (fun w => ign w.text)).reverse :
        List WordData).isEmpty
    · rw [if_pos h2]
      rw [List.isEmpty_iff] at h2
      rw [h2]
      rfl
    · rw [if_neg h2]
      rw [do_trim_eq, List.reverse_reverse]

theorem clean_interior_true (ign : String → Bool) (ws : List WordData) :
    clean_interior ign true ws =
      clean_interior ign false (ws.dropWhile (fun w => ign w.text)) := by
  induction ws with
  | nil => rfl
  | cons w ws ih =>
    rw [List.dropWhile_cons]
    by_cases hw : ign w.text
    · simp [clean_interior, hw, ih]
    · simp [clean_interior, hw]

theorem clean_interior_eq_aux (ign : String → Bool) :
    ∀ (n : Nat) (ws : List WordData), ws.length ≤ n →
      clean_interior ign false ws = collapseRuns ign ws := by
  intro n
  induction n with
  | zero =>
    intro ws h
    have hnil : ws = [] := by
      cases ws with
      | nil => rfl
      | cons a l => simp at h
    subst hnil
    rw [collapseRuns]
    rfl
  | succ n ih =>
    intro ws h
    cases ws with
    | nil =>
      rw [collapseRuns]
      rfl
    | cons w ws =>
      rw [collapseRuns]
      by_cases hw : ign w.text
      · have hlen : (List.dropWhile (fun x => ign x.text) ws).length ≤ n := by
          have := length_dropWhile_le (fun x => ign x.text) ws
          simp at h
          omega
        simp [clean_interior, hw, clean_interior_true, ih _ hlen]
      · have hlen : ws.length ≤ n := by
          simp at h
          omega
        simp [clean_interior, hw, ih _ hlen]

theorem clean_interior_eq (ign : String → Bool) (ws : List WordData) :
    clean_interior ign false ws = collapseRuns ign ws :=
  clean_interior_eq_aux ign ws.length ws (le_refl _)

/-- Specification-side per-line cleanup: remove an empty line; otherwise trim
    both ends, collapse interior runs, and remove the line if now empty. -/
def clean_line_spec (ign : String → Bool) (l : Line) : Option Line :=
  if l.isEmpty then none
  else
    let t := collapseRuns ign (dropTrailingIgnored ign (dropLeadingIgnored ign l))
    if t.isEmpty then none else some t

/-- Specification-side cleanup pass over all groups. -/
def clean_words_spec (ign : String → Bool) (gs : List LineGroup) :
    List LineGroup :=
  (gs.map fun g => g.filterMap (clean_line_spec ign)).filter
    (fun g => !g.isEmpty)

theorem clean_line_eq_spec (ign : String → Bool) (l : Line) :
    clean_line ign l = clean_line_spec ign l := by
  unfold clean_line clean_line_spec
  rw [trim_line_eq, clean_interior_eq]

/- ------------------------------------------------------------------ -/
/- Concrete example data.                                              -/
/- ------------------------------------------------------------------ -/

/-- An axis-aligned box given by its two corner coordinates, in the vertex
    order the scanning backend produces. -/
def boxAt (x0 y0 x1 y1 : Rat) : List Vertex :=
  [⟨x0, y0⟩, ⟨x1, y0⟩, ⟨x1, y1⟩, ⟨x0, y1⟩]

/-- Concrete ignore predicate: the text is a single dot (a dot-leader token,
    matched by the GROUP_IGNORE pattern of the source). -/
def dotIgn : String → Bool := fun s => s == "."

/-- Example word "Intro" at x 0..10, y 0..10. -/
def exWordA : WordData := ⟨"Intro", boxAt 0 0 10 10⟩

/-- Example dot-leader word at x 12..14. -/
def exDot1 : WordData := ⟨".", boxAt 12 0 14 10⟩

/-- Example dot-leader word at x 16..18. -/
def exDot2 : WordData := ⟨".", boxAt 16 0 18 10⟩

/-- Example word "5" at x 20..24. -/
def exWordB : WordData := ⟨"5", boxAt 20 0 24 10⟩

/- ------------------------------------------------------------------ -/
/- C1                                                                  -/
/- ------------------------------------------------------------------ -/

/-- C1, counterexample: on the line ["Intro", ".", ".", "5"] with the ignore
    predicate matching ".", the interior run of two consecutive ignorable
    words is NOT left untouched by the mandatory cleanup pass: the second dot
    is removed, so the cleaned line has three words, not four.  This refutes
    the claim that no interior word is ever removed. -/
theorem c1_counterexample :
    clean_words dotIgn [[[exWordA, exDot1, exDot2, exWordB]]] =
        [[[exWordA, exDot1, exWordB]]]
    ∧ [[[exWordA, exDot1, exWordB]]] ≠
        ([[[exWordA, exDot1, exDot2, exWordB]]] : List LineGroup) := by
  constructor
  · unfold clean_words
    have h : clean_line dotIgn [exWordA, exDot1, exDot2, exWordB] =
        some [exWordA, exDot1, exWordB] := by
      unfold clean_line
      rw [trim_line_eq]
      decide
    simp [h]
  · decide

/-- C1 (amended): the mandatory cleanup pass trims leading and trailing runs
    of ignorable words from both ends inward; in the interior, within each
    maximal run of two or more consecutive ignorable words, every word after
    the first is removed (only the first word of the run is kept); lines left
    empty are removed from their group, and groups left with no lines are
    removed from the output. -/
theorem c1_clean_words_spec (ign : String → Bool) (gs : List LineGroup) :
    clean_words ign gs = clean_words_spec ign gs := by
  unfold clean_words clean_words_spec
  have h : clean_line ign = clean_line_spec ign := funext (clean_line_eq_spec ign)
  rw [h]

/- ------------------------------------------------------------------ -/
/- C8                                                                  -/
/- ------------------------------------------------------------------ -/

/-- C8, counterexample: reading bounds on a Grouped Element with zero
    children does NOT fail: it silently returns the placeholder quadrilateral
    whose coordinates are all None (the values list_min and list_max return
    for no children).  For a LineGroup the property evaluates without any
    exception as well (the outer some).  This refutes the claim that reading
    bounds on an empty element fails loudly rather than returning a
    placeholder. -/
theorem c8_counterexample :
    lineBounds ([] : Line) =
        [(none, none), (none, none), (none, none), (none, none)]
    ∧ groupBounds ([] : LineGroup) =
        some [(none, none), (none, none), (none, none), (none, none)] :=
  ⟨rfl, rfl⟩

/-- C8 (amended): on a Grouped Element with zero children, height and width
    do fail (the sorted-coordinate computation hits the None placeholders and
    raises, modelled by none, never producing a number), but bounds itself
    succeeds and silently returns the four-vertex placeholder with all-None
    coordinates. -/
theorem c8_empty_access :
    lineHeight ([] : Line) = none
    ∧ lineWidth ([] : Line) = none
    ∧ groupHeight ([] : LineGroup) = none
    ∧ groupWidth ([] : LineGroup) = none
    ∧ lineBounds ([] : Line) = boundsQuad none none none none
    ∧ groupBounds ([] : LineGroup) = some (boundsQuad none none none none) :=
  ⟨rfl, rfl, rfl, rfl, rfl, rfl⟩

/- ------------------------------------------------------------------ -/
/- C3                                                                  -/
/- ------------------------------------------------------------------ -/

/-- C3, counterexample: on an empty word sequence the engine fails instead of
    returning a list of groups — WordGrouper.__init__ pops the first word of
    the empty list and raises an IndexError (modelled by none).  This refutes
    the claim that the construction-plus-run never fails for any well-formed
    input including an empty word sequence. -/
theorem c3_counterexample :
    wordGrouper_group 612 792 [] (some dotIgn) DEFAULT_PROXIMITY_THRESHOLDS
      = none := rfl

/-- C3 (amended): the engine can fail — on an empty word sequence (IndexError
    in __init__), on an absent ignore pattern (TypeError from re.fullmatch in
    the cleanup pass), and on a slope evaluation between distinct centers
    with equal x coordinates (ZeroDivisionError); but whenever the word
    sequence is non-empty, an ignore pattern is supplied, and every slope
    evaluation in the grouping loop is defined, the full grouping-plus-cleanup
    computation returns a (possibly empty) list of LineGroups. -/
theorem c3_grouper_total (pw ph : Rat) (w : WordData) (rest : List WordData)
    (ign : String → Bool) (th : Thresholds) (gs : List LineGroup)
    (h : group_loop th [[[w]]] rest = some gs) :
    wordGrouper_group pw ph (w :: rest) (some ign) th =
      some (clean_words ign gs) := by
  have hdef : wordGrouper_group pw ph (w :: rest) (some ign) th =
      (group_loop th [[[w]]] rest).bind fun gs2 =>
        some (clean_words ign gs2) := rfl
  rw [hdef, h]
  rfl

/-- C3, witness: a one-word input with the dot ignore pattern runs to
    completion. -/
theorem c3_witness :
    wordGrouper_group 612 792 [exWordA] (some dotIgn)
      DEFAULT_PROXIMITY_THRESHOLDS = some (clean_words dotIgn [[[exWordA]]]) :=
  c3_grouper_total 612 792 exWordA [] dotIgn DEFAULT_PROXIMITY_THRESHOLDS
    [[[exWordA]]] rfl

/- ------------------------------------------------------------------ -/
/- C6                                                                  -/
/- ------------------------------------------------------------------ -/

/-- C6: one step of the single-pass grouping loop.  Under the definedness
    hypotheses (the last line's geometry and the slope evaluate, as they do
    throughout the main workflow), the word is accepted into the last line of
    the last group exactly when (i) the slope between the line's center and
    the word's center does not exceed line_slope, (ii) the absolute height
    difference does not exceed height, and (iii) the horizontal gap between
    the word's left edge and the line's right edge is below word; otherwise a
    new one-word Line is appended to the current group exactly when the
    vertical gap between the new line's top and the group's bottom does not
    exceed group; otherwise a new LineGroup holding only the new line is
    appended to the output sequence. -/
theorem c6_group_step (th : Thresholds) (gs : List LineGroup) (g : LineGroup)
    (l : Line) (w : WordData) (lc : Rat × Rat) (lh s lmx nmin gmax : Rat)
    (hg : gs.getLast? = some g) (hl : g.getLast? = some l)
    (hlc : lineCenter l = some lc) (hlh : lineHeight l = some lh)
    (hs : slope lc (wordCenter w) = some s)
    (hlmx : lineMaxX l = some lmx)
    (hnmin : lineMinY [w] = some nmin)
    (hgmax : groupMaxY g = some gmax) :
    group_step th gs w =
      if s ≤ th.line_slope ∧ |wordHeight w - lh| ≤ th.height
          ∧ |wordMinX w - lmx| < th.word
      then some (gs.dropLast ++ [g.dropLast ++ [l ++ [w]]])
      else if |nmin - gmax| ≤ th.group
      then some (gs.dropLast ++ [g ++ [[w]]])
      else some (gs ++ [[[w]]]) := by
  have hwl : word_in_line th w l = some (decide (s ≤ th.line_slope
      ∧ |wordHeight w - lh| ≤ th.height ∧ |wordMinX w - lmx| < th.word)) := by
    unfold word_in_line is_in_line
    rw [hlc]
    simp only [Option.some_bind]
    rw [hlh]
    simp only [Option.some_bind]
    rw [hs]
    by_cases h1 : s > th.line_slope
    · have hn1 : ¬ s ≤ th.line_slope := not_le.mpr h1
      simp [h1, hn1]
    · by_cases h2 : |wordHeight w - lh| > th.height
      · have hn2 : ¬ |wordHeight w - lh| ≤ th.height := not_le.mpr h2
        simp [h1, h2, hn2]
      · have hp1 : s ≤ th.line_slope := not_lt.mp h1
        have hp2 : |wordHeight w - lh| ≤ th.height := not_lt.mp h2
        simp [h1, h2, hlmx, hp1, hp2]
  have hlg : line_in_group th [w] g =
      some (decide (|nmin - gmax| ≤ th.group)) := by
    unfold line_in_group
    rw [hnmin]
    simp only [Option.some_bind]
    rw [hgmax]
    by_cases h4 : |nmin - gmax| > th.group
    · have hn4 : ¬ |nmin - gmax| ≤ th.group := not_le.mpr h4
      simp [h4, hn4]
    · have hp4 : |nmin - gmax| ≤ th.group := not_lt.mp h4
      simp [h4, hp4]
  simp only [group_step, hg, hl, hwl, hlg]
  by_cases hC1 : s ≤ th.line_slope ∧ |wordHeight w - lh| ≤ th.height
      ∧ |wordMinX w - lmx| < th.word
  · simp [hC1]
  · by_cases hC2 : |nmin - gmax| ≤ th.group
    · simp [hC1, hC2]
    · simp [hC1, hC2]

/-- Example word used as the seed of the C6 witness: x 0..10, y 0..10. -/
def exSeed : WordData := ⟨"Chapter", boxAt 0 0 10 10⟩

/-- Example word tested by the C6 witness: x 20..30, y 0..10 — same height,
    zero slope between centers, horizontal gap 10 < word=35. -/
def exNext : WordData := ⟨"1", boxAt 20 0 30 10⟩

/-- C6, witness: with the default thresholds the second word is accepted into
    the first word's line. -/
theorem c6_witness :
    group_step DEFAULT_PROXIMITY_THRESHOLDS [[[exSeed]]] exNext =
      some [[[exSeed, exNext]]] := by
  have h := c6_group_step DEFAULT_PROXIMITY_THRESHOLDS [[[exSeed]]] [[exSeed]]
    [exSeed] exNext (5, 5) 10 0 10 0 10
    rfl rfl
    (by norm_num [lineCenter, lineCenterX, lineCenterY, lineMinX, lineMaxX,
      lineMinY, lineMaxY, lineWidth, lineHeight, lineXCoords, lineYCoords,
      coordsFromBounds, lineBounds, boundsQuad, list_min, list_max, optList,
      pySorted, insertRat, wordMinX, wordMaxX, wordMinY, wordMaxY,
      wordXCoords, wordYCoords, exSeed, boxAt])
    (by norm_num [lineHeight, lineMinY, lineMaxY, lineYCoords,
      coordsFromBounds, lineBounds, boundsQuad, list_min, list_max, optList,
      pySorted, insertRat, wordMinX, wordMaxX, wordMinY, wordMaxY,
      wordXCoords, wordYCoords, exSeed, boxAt])
    (by norm_num [slope, wordCenter, wordWidth, wordHeight, wordMinX,
      wordMaxX, wordMinY, wordMaxY, wordXCoords, wordYCoords, pySorted,
      insertRat, exNext, boxAt])
    (by norm_num [lineMaxX, lineXCoords, coordsFromBounds, lineBounds,
      boundsQuad, list_min, list_max, optList, pySorted, insertRat, wordMinX,
      wordMaxX, wordMinY, wordMaxY, wordXCoords, wordYCoords, exSeed, boxAt])
    (by norm_num [lineMinY, lineYCoords, coordsFromBounds, lineBounds,
      boundsQuad, list_min, list_max, optList, pySorted, insertRat, wordMinX,
      wordMaxX, wordMinY, wordMaxY, wordXCoords, wordYCoords, exNext, boxAt])
    (by norm_num [groupMaxY, groupYCoords, groupBounds, lineMinX, lineMaxX,
      lineMinY, lineMaxY, lineXCoords, lineYCoords, coordsFromBounds,
      lineBounds, boundsQuad, list_min, list_max, optList, pySorted,
      insertRat, wordMinX, wordMaxX, wordMinY, wordMaxY, wordXCoords,
      wordYCoords, exSeed, boxAt])
  rw [h]
  norm_num [DEFAULT_PROXIMITY_THRESHOLDS, wordHeight, wordMinX, wordMaxY,
    wordMinY, wordXCoords, wordYCoords, pySorted, insertRat, exNext, boxAt]

/- ------------------------------------------------------------------ -/
/- C5                                                                  -/
/- ------------------------------------------------------------------ -/

/-- The four ordering keys of an item, in comparison priority. -/
def orderKeys (a : ContentsItem) : Int × Int × Int × Rat :=
  (a.page, a.block, a.paragraph, a.minY)

/-- Specification-side strict lexicographic precedence on
    (page, block index, paragraph index, vertical top coordinate). -/
def lexBefore (a b : ContentsItem) : Prop :=
  a.page < b.page ∨ (a.page = b.page ∧
    (a.block < b.block ∨ (a.block = b.block ∧
      (a.paragraph < b.paragraph ∨ (a.paragraph = b.paragraph ∧
        a.minY < b.minY)))))

/-- C5: is_before is the lexicographic comparison on (page, block,
    paragraph, min_y) in that priority — some true exactly when a strictly
    precedes b on the first differing key, some false exactly when b strictly
    precedes a, and the distinguished non-boolean None exactly when all four
    keys are equal. -/
theorem c5_is_before_lex (a b : ContentsItem) :
    (a.is_before b = some true ↔ lexBefore a b)
    ∧ (a.is_before b = some false ↔ lexBefore b a)
    ∧ (a.is_before b = none ↔ orderKeys a = orderKeys b) := by
  unfold ContentsItem.is_before lexBefore orderKeys
  rcases lt_trichotomy a.page b.page with h1 | h1 | h1
  · simp [h1, ne_of_lt h1, asymm h1, Ne.symm (ne_of_lt h1), Prod.ext_iff]
  · simp only [h1]
    rcases lt_trichotomy a.block b.block with h2 | h2 | h2
    · simp [h2, ne_of_lt h2, asymm h2, Ne.symm (ne_of_lt h2), Prod.ext_iff]
    · simp only [h2]
      rcases lt_trichotomy a.paragraph b.paragraph with h3 | h3 | h3
      · simp [h3, ne_of_lt h3, asymm h3, Ne.symm (ne_of_lt h3), Prod.ext_iff]
      · simp only [h3]
        rcases lt_trichotomy a.minY b.minY with h4 | h4 | h4
        · simp [h4, ne_of_lt h4, asymm h4, Ne.symm (ne_of_lt h4),
            Prod.ext_iff]
        · simp [h4, Prod.ext_iff]
        · simp [h4, ne_of_gt h4, asymm h4, Ne.symm (ne_of_gt h4),
            Prod.ext_iff]
      · simp [h3, ne_of_gt h3, asymm h3, Ne.symm (ne_of_gt h3),
          Prod.ext_iff]
    · simp [h2, ne_of_gt h2, asymm h2, Ne.symm (ne_of_gt h2), Prod.ext_iff]
  · simp [h1, ne_of_gt h1, asymm h1, Ne.symm (ne_of_gt h1), Prod.ext_iff]

/- ------------------------------------------------------------------ -/
/- C10                                                                 -/
/- ------------------------------------------------------------------ -/

/-- C10: add appends the child at the end of the children list, preserving
    the existing children and their order; the child's ordinal becomes the
    prior child count plus one exactly when it was absent (None) or zero
    beforehand — a pre-specified 0 is overwritten as if unassigned — while
    any non-zero pre-specified ordinal is preserved unchanged, as are the
    child's other fields. -/
theorem c10_add (t : CItemType) (r : SearchResult) (n : Option Int)
    (cs : List ContentsItem) (c : ContentsItem) :
    ((c.number = none ∨ c.number = some 0) →
      (ContentsItem.mk t r n cs).add c = ContentsItem.mk t r n
        (cs ++ [ContentsItem.mk c.ty c.result
          (some ((cs.length : Int) + 1)) c.children]))
    ∧ (∀ m : Int, c.number = some m → m ≠ 0 →
      (ContentsItem.mk t r n cs).add c = ContentsItem.mk t r n (cs ++ [c])) := by
  constructor
  · intro h
    have hf : numFalsy c.number = true := by
      rcases h with h | h <;> simp [numFalsy, h]
    unfold ContentsItem.add
    simp [hf]
  · intro m hm hm0
    have hf : numFalsy c.number = false := by
      simp [numFalsy, hm, hm0]
    unfold ContentsItem.add
    simp [hf]

/-- Anchor detection for the C10 witness parent. -/
def rParent : SearchResult := ⟨1, 0, 0, boxAt 0 0 100 10⟩

/-- Anchor detection for the C10 witness child. -/
def rChild : SearchResult := ⟨2, 0, 0, boxAt 0 20 100 30⟩

/-- An existing child of the C10 witness parent. -/
def exExisting : ContentsItem := ContentsItem.mk .part rParent (some 1) []

/-- C10, witness: adding an ordinal-less Part to a root that already has one
    child appends it after the existing child with ordinal 2. -/
theorem c10_witness :
    (ContentsItem.mk .toc rParent none [exExisting]).add
        (ContentsItem.mk .part rChild none []) =
      ContentsItem.mk .toc rParent none
        [exExisting, ContentsItem.mk .part rChild (some 2) []] := by
  have h := (c10_add .toc rParent none [exExisting]
    (ContentsItem.mk .part rChild none [])).1 (Or.inl rfl)
  simpa [ContentsItem.ty, ContentsItem.result, ContentsItem.children] using h

/- ------------------------------------------------------------------ -/
/- C4 and C9: the parent search.                                       -/
/- ------------------------------------------------------------------ -/

theorem find_parent_tied (self d lastc : ContentsItem) (pt : CItemType)
    (hall : ∀ c ∈ self.children, d.is_before c = none)
    (hlast : self.children.getLast? = some lastc) (hty : lastc.ty = pt) :
    find_parent_for self d pt = .ok lastc := by
  have hidx : self.children.findIdx?
      (fun c => d.is_before c == some true) = none := by
    rw [List.findIdx?_eq_none_iff]
    intro c hc
    simp [hall c hc]
  have hpick : pickParent self.children d = some lastc := by
    unfold pickParent
    rw [hidx, hlast]
  rw [find_parent_for]
  split
  · next heq =>
    rw [hpick] at heq
    cases heq
  · next parent heq =>
    rw [hpick] at heq
    injection heq with h2
    subst h2
    rw [if_pos hty]

theorem find_parent_no_children (self d : ContentsItem) (pt : CItemType)
    (h : self.children = []) :
    find_parent_for self d pt =
      .error "Could not find item within children" := by
  have hpick : pickParent self.children d = none := by
    unfold pickParent
    rw [h]
    rfl
  rw [find_parent_for]
  split
  · rfl
  · next parent heq =>
    rw [hpick] at heq
    cases heq

theorem find_parent_ok_ty (n : Nat) :
    ∀ (self d : ContentsItem) (pt : CItemType) (p : ContentsItem),
      sizeOf self ≤ n → find_parent_for self d pt = .ok p → p.ty = pt := by
  induction n with
  | zero =>
    intro self d pt p hle h
    exfalso
    cases self with
    | mk t r n0 cs =>
      simp [ContentsItem.mk.sizeOf_spec] at hle
  | succ n ih =>
    intro self d pt p hle h
    rw [find_parent_for] at h
    split at h
    · exact absurd h (by simp)
    · next parent heq =>
      split at h
      · next hty =>
        injection h with h2
        exact h2 ▸ hty
      · next hty =>
        have hsz := sizeOf_lt_of_mem_children (pickParent_mem heq)
        exact ih parent d pt p (by omega) h

/-- Anchor detection shared by the two tied items of the C4 example. -/
def rTie : SearchResult := ⟨3, 1, 2, boxAt 0 40 100 50⟩

/-- A Part already inserted below the root in the C4 example. -/
def exPartTied : ContentsItem := ContentsItem.mk .part rTie (some 1) []

/-- A Chapter whose anchor ties with exPartTied on all four ordering keys. -/
def exChapTied : ContentsItem := ContentsItem.mk .chapter rTie none []

/-- The root of the C4 example, holding the single tied Part. -/
def exRootTied : ContentsItem :=
  ContentsItem.mk .toc ⟨0, 0, 0, boxAt 0 0 100 10⟩ none [exPartTied]

/-- C4, counterexample: the chapter's anchor compares equal to the part's
    anchor on all four ordering keys (is_before yields the ambiguous None),
    yet find_parent_for raises no error and surfaces nothing: by Python
    truthiness the None comparison is treated exactly like "not before", the
    scan falls through to the last child, and the tied Part is returned as
    the parent.  This refutes the claim that the ambiguity is detected and
    surfaced and that the tie is never resolved as 'not before'. -/
theorem c4_counterexample :
    ContentsItem.is_before exChapTied exPartTied = none
    ∧ find_parent_for exRootTied exChapTied .part = .ok exPartTied := by
  constructor
  · rfl
  · exact find_parent_tied exRootTied exChapTied exPartTied .part
      (by
        intro c hc
        simp [exRootTied, ContentsItem.children] at hc
        subst hc
        rfl)
      rfl rfl

/-- C4 (amended): during insertion the ambiguous comparison is NOT surfaced:
    whenever the new anchor ties (is_before = None) with every child of the
    current node, the scan treats each tie as 'not before', falls through to
    the last child, and — when that child has the required parent type —
    returns it as an ordinary success, indistinguishable from a genuine
    'after the last child' placement. -/
theorem c4_tie_not_surfaced (self d lastc : ContentsItem) (pt : CItemType)
    (hall : ∀ c ∈ self.children, d.is_before c = none)
    (hlast : self.children.getLast? = some lastc) (hty : lastc.ty = pt) :
    find_parent_for self d pt = .ok lastc :=
  find_parent_tied self d lastc pt hall hlast hty

/-- C4, witness: the concrete tied tree from the counterexample data. -/
theorem c4_witness :
    find_parent_for exRootTied exChapTied CItemType.part =
      Except.ok exPartTied :=
  c4_tie_not_surfaced exRootTied exChapTied exPartTied .part
    (by
      intro c hc
      simp [exRootTied, ContentsItem.children] at hc
      subst hc
      rfl)
    rfl rfl

/- ------------------------------------------------------------------ -/
/- C9                                                                  -/
/- ------------------------------------------------------------------ -/

/-- C9: when the candidate children chain is empty the parent search signals
    the construction error (RuntimeError in the source) rather than
    attaching the anchor anywhere; and every successfully returned parent has
    exactly the required parent type, so an anchor is never handed to a
    parent of a different type. -/
theorem c9_parent_search (self d : ContentsItem) (pt : CItemType) :
    (self.children = [] →
      find_parent_for self d pt =
        .error "Could not find item within children")
    ∧ (∀ p : ContentsItem, find_parent_for self d pt = .ok p → p.ty = pt) :=
  ⟨fun hnil => find_parent_no_children self d pt hnil,
   fun p h => find_parent_ok_ty (sizeOf self) self d pt p (le_refl _) h⟩

/-- C9, witness: a root with no children makes the parent search fail with
    the construction error. -/
theorem c9_witness :
    find_parent_for (ContentsItem.mk .toc rParent none []) exChapTied
      CItemType.part = Except.error "Could not find item within children" :=
  (c9_parent_search (ContentsItem.mk .toc rParent none []) exChapTied
    CItemType.part).1 rfl

/- ------------------------------------------------------------------ -/
/- C2 and C7: the span resolver.                                       -/
/- ------------------------------------------------------------------ -/

theorem flattenList_eq (cs : List ContentsItem) :
    flattenList cs = (cs.map flatten).flatten := by
  induction cs with
  | nil => rfl
  | cons c cs ih => simp [flattenList, ih]

theorem flatten_eq (t : ContentsItem) :
    flatten t = t :: (t.children.map flatten).flatten := by
  cases t with
  | mk ty r n cs =>
    rw [flatten, flattenList_eq]
    rfl

theorem buildSpans_length (items : List ContentsItem) :
    (buildSpans items).length = items.length := by
  unfold buildSpans
  cases hlast : items.getLast? with
  | none =>
    have hnil : items = [] := List.getLast?_eq_none_iff.mp hlast
    subst hnil
    rfl
  | some x =>
    have hne : items ≠ [] := by
      intro hh
      subst hh
      simp at hlast
    have hpos : 0 < items.length := List.length_pos.mpr hne
    simp [List.length_zip, List.length_tail]
    omega

theorem buildSpans_getElem?_mid {items : List ContentsItem} {i : Nat}
    {x y : ContentsItem} (hx : items[i]? = some x)
    (hy : items[i+1]? = some y) :
    (buildSpans items)[i]? = some (ContentItemSpan.mk x (some y)) := by
  have hy1 : i + 1 < items.length := by
    rcases List.getElem?_eq_some_iff.mp hy with ⟨h, _⟩
    exact h
  have hne : items ≠ [] := by
    intro hh
    subst hh
    simp at hx
  obtain ⟨lastc, hlast⟩ : ∃ l, items.getLast? = some l := by
    cases hl : items.getLast? with
    | none => exact absurd (List.getLast?_eq_none_iff.mp hl) hne
    | some l => exact ⟨l, rfl⟩
  unfold buildSpans
  rw [hlast]
  have hlt : i < ((items.zip items.tail).map
      (fun p => ContentItemSpan.mk p.1 (some p.2))).length := by
    simp [List.length_zip, List.length_tail]
    omega
  rw [List.getElem?_append_left hlt, List.getElem?_map]
  have hzip : (items.zip items.tail)[i]? = some (x, y) := by
    rw [List.getElem?_zip_eq_some]
    exact ⟨hx, by rw [List.getElem?_tail]; exact hy⟩
  rw [hzip]
  rfl

theorem buildSpans_getLast? {items : List ContentsItem} {x : ContentsItem}
    (h : items.getLast? = some x) :
    (buildSpans items).getLast? = some (ContentItemSpan.mk x none) := by
  unfold buildSpans
  rw [h]
  exact List.getLast?_concat _

theorem buildSpans_start {items : List ContentsItem} {i : Nat}
    {s : ContentItemSpan} (h : (buildSpans items)[i]? = some s) :
    items[i]? = some s.start := by
  unfold buildSpans at h
  cases hlast : items.getLast? with
  | none =>
    have hnil : items = [] := List.getLast?_eq_none_iff.mp hlast
    subst hnil
    simp at h
  | some x =>
    rw [hlast] at h
    have hne : items ≠ [] := by
      intro hh
      subst hh
      simp at hlast
    have hpos : 0 < items.length := List.length_pos.mpr hne
    have hlen : ((items.zip items.tail).map
        (fun p => ContentItemSpan.mk p.1 (some p.2))).length =
          items.length - 1 := by
      simp [List.length_zip, List.length_tail]
    by_cases hi : i < ((items.zip items.tail).map
        (fun p => ContentItemSpan.mk p.1 (some p.2))).length
    · rw [List.getElem?_append_left hi, List.getElem?_map] at h
      cases hz : (items.zip items.tail)[i]? with
      | none =>
        rw [hz] at h
        simp at h
      | some z =>
        rw [hz] at h
        simp only [Option.map_some'] at h
        injection h with h2
        rcases List.getElem?_zip_eq_some.mp hz with ⟨hz1, _⟩
        rw [hz1, ← h2]
    · rw [List.getElem?_append_right (Nat.le_of_not_lt hi)] at h
      rcases Nat.lt_or_ge (i - ((items.zip items.tail).map
          (fun p => ContentItemSpan.mk p.1 (some p.2))).length) 1 with hj | hj
      · have hj0 : i - ((items.zip items.tail).map
            (fun p => ContentItemSpan.mk p.1 (some p.2))).length = 0 := by
          omega
        rw [hj0] at h
        simp only [List.getElem?_cons_zero] at h
        injection h with h2
        have hieq : i = items.length - 1 := by
          rw [hlen] at hi hj0
          omega
        rw [hieq, ← List.getLast?_eq_getElem?, hlast, ← h2]
      · have : ([ContentItemSpan.mk x none] : List ContentItemSpan).length ≤
            i - ((items.zip items.tail).map
              (fun p => ContentItemSpan.mk p.1 (some p.2))).length := by
          simp
          omega
        rw [List.getElem?_eq_none this] at h
        cases h

theorem buildSpans_consec {items : List ContentsItem} {i : Nat}
    {s1 s2 : ContentItemSpan} (h1 : (buildSpans items)[i]? = some s1)
    (h2 : (buildSpans items)[i+1]? = some s2) :
    s1.endItem = some s2.start := by
  have hs1 := buildSpans_start h1
  have hs2 := buildSpans_start h2
  have hmid := buildSpans_getElem?_mid hs1 hs2
  have h3 := h1.symm.trans hmid
  injection h3 with h4
  rw [h4]

/-- C2 (amended): consecutive spans on the same page do not overlap but do
    not meet either — the earlier span's end is the TOP (min_y) of the later
    span's start anchor, while the later span starts at the BOTTOM (max_y) of
    that same anchor, so the two bounds differ by the anchor box's height and
    coincide only for a degenerate (zero-height) box; for a well-formed
    anchor box (top ≤ bottom) the earlier span's end never exceeds the later
    span's start. -/
theorem c2_spans_no_overlap (t : ContentsItem) (i : Nat)
    (s1 s2 : ContentItemSpan)
    (h1 : (runSpans t)[i]? = some s1) (h2 : (runSpans t)[i+1]? = some s2)
    (hpage : s1.start.page = s2.start.page)
    (hbox : s2.start.minY ≤ s2.start.maxY) :
    s1.y_bounds.2 = some s2.start.minY
    ∧ s2.y_bounds.1 = s2.start.maxY
    ∧ (∀ y : Rat, s1.y_bounds.2 = some y → y ≤ s2.y_bounds.1) := by
  have hconsec : s1.endItem = some s2.start := buildSpans_consec h1 h2
  have hppage : ¬ s1.start.page ≠ s2.start.page := by
    simp only [ne_eq, not_not]
    exact hpage
  have hb1 : s1.y_bounds.2 = some s2.start.minY := by
    simp only [ContentItemSpan.y_bounds, hconsec]
    rw [if_neg hppage]
  have hb2 : s2.y_bounds.1 = s2.start.maxY := by
    cases he : s2.endItem with
    | none => simp only [ContentItemSpan.y_bounds, he]
    | some e =>
      simp only [ContentItemSpan.y_bounds, he]
      by_cases hp : s2.start.page ≠ e.page
      · rw [if_pos hp]
      · rw [if_neg hp]
  refine ⟨hb1, hb2, ?_⟩
  intro y hy
  rw [hb1] at hy
  injection hy with hy
  rw [hb2, ← hy]
  exact hbox

/-- Anchor of the C2 example root: page 0, y extent 0..5. -/
def rRootSpan : SearchResult := ⟨0, 0, 0, boxAt 0 0 100 5⟩

/-- Anchor of the C2 example part: page 0, y extent 10..20. -/
def rPartSpan : SearchResult := ⟨0, 1, 0, boxAt 0 10 100 20⟩

/-- The C2 example tree, built with add: a root and one Part, both on
    page 0. -/
def exSpanTree : ContentsItem :=
  (ContentsItem.mk .toc rRootSpan none []).add
    (ContentsItem.mk .part rPartSpan none [])

/-- C2, counterexample: in the two-node tree on one page the earlier span
    ends at y = 10 (the top of the part's anchor box) while the later span
    starts at y = 20 (the bottom of that box): the end y of the earlier span
    does not equal the start y of the later span, leaving the anchor box's
    extent uncovered.  This refutes the claim that consecutive same-page
    spans partition the page with no gap. -/
theorem c2_counterexample :
    ((runSpans exSpanTree).map (fun s => s.y_bounds)) =
      [(5, some 10), (20, none)]
    ∧ (10 : Rat) ≠ 20 := by
  constructor
  · rfl
  · decide

/-- C2, witness: the amended no-overlap statement applied to the concrete
    two-node tree at index 0. -/
theorem c2_witness :
    ∃ s1 s2 : ContentItemSpan,
      (runSpans exSpanTree)[0]? = some s1
      ∧ (runSpans exSpanTree)[1]? = some s2
      ∧ s1.y_bounds.2 = some s2.start.minY
      ∧ s2.y_bounds.1 = s2.start.maxY := by
  refine ⟨ContentItemSpan.mk exSpanTree
      (some (ContentsItem.mk .part rPartSpan (some 1) [])),
    ContentItemSpan.mk (ContentsItem.mk .part rPartSpan (some 1) []) none,
    rfl, rfl, ?_, ?_⟩
  · exact (c2_spans_no_overlap exSpanTree 0 _ _ rfl rfl rfl (by decide)).1
  · exact (c2_spans_no_overlap exSpanTree 0 _ _ rfl rfl rfl (by decide)).2.1

/-- C7: the resolver flattens the tree in pre-order (the node itself followed
    by each child's flattened subtree, in order) and builds one span per node
    in that order: the span at index i starts at the node at index i and —
    when a next node exists — ends at it; the final span has no end item.
    Every span's y interval starts at the bottom (max_y) of its start
    anchor's box; it ends at the top (min_y) of the end anchor's box exactly
    when the two anchors share a page, and is open-ended (None, running to
    the bottom of the page) when the pages differ or there is no end item. -/
theorem c7_span_resolver (t : ContentsItem) :
    (flatten t = t :: (t.children.map flatten).flatten)
    ∧ ((buildSpans (flatten t)).length = (flatten t).length)
    ∧ (∀ (i : Nat) (x y : ContentsItem), (flatten t)[i]? = some x →
        (flatten t)[i+1]? = some y →
        (buildSpans (flatten t))[i]? = some (ContentItemSpan.mk x (some y)))
    ∧ (∀ x : ContentsItem, (flatten t).getLast? = some x →
        (buildSpans (flatten t)).getLast? = some (ContentItemSpan.mk x none))
    ∧ (∀ s : ContentItemSpan, s.y_bounds.1 = s.start.maxY
        ∧ (s.endItem = none → s.y_bounds.2 = none)
        ∧ (∀ e : ContentsItem, s.endItem = some e → s.y_bounds.2 =
            if s.start.page = e.page then some e.minY else none)) := by
  refine ⟨flatten_eq t, buildSpans_length (flatten t),
    fun i x y hx hy => buildSpans_getElem?_mid hx hy,
    fun x hx => buildSpans_getLast? hx, fun s => ⟨?_, ?_, ?_⟩⟩
  · cases he : s.endItem with
    | none => simp only [ContentItemSpan.y_bounds, he]
    | some e =>
      simp only [ContentItemSpan.y_bounds, he]
      by_cases hp : s.start.page ≠ e.page
      · rw [if_pos hp]
      · rw [if_neg hp]
  · intro he
    simp only [ContentItemSpan.y_bounds, he]
  · intro e he
    simp only [ContentItemSpan.y_bounds, he]
    by_cases hp : s.start.page = e.page
    · rw [if_neg (by simp only [ne_eq, not_not]; exact hp), if_pos hp]
    · rw [if_pos (by simp only [ne_eq]; exact hp), if_neg hp]

/-- The single Part node of the C7 witness tree. -/
def exPart7 : ContentsItem := ContentsItem.mk .part rPartSpan (some 1) []

/-- The C7 witness tree: a root holding one Part. -/
def exTree7 : ContentsItem := ContentsItem.mk .toc rRootSpan none [exPart7]

/-- C7, witness: the span list of the concrete two-node tree has one span per
    flattened node, the first span runs from the root to the part, and the
    final span is open-ended. -/
theorem c7_witness :
    (buildSpans (flatten exTree7)).length = (flatten exTree7).length
    ∧ (buildSpans (flatten exTree7))[0]? =
        some (ContentItemSpan.mk exTree7 (some exPart7))
    ∧ (buildSpans (flatten exTree7)).getLast? =
        some (ContentItemSpan.mk exPart7 none) :=
  ⟨(c7_span_resolver exTree7).2.1,
   (c7_span_resolver exTree7).2.2.1 0 exTree7 exPart7 rfl rfl,
   (c7_span_resolver exTree7).2.2.2.1 exPart7 rfl⟩

end D2A
